import Mathlib

/-!
Verification development for the query-compilation and schema-resolution
layer of the pg_search extension (src/pg_search/src/query/mod.rs and
src/pg_search/src/schema/mod.rs), shallowly embedded in Lean 4.

Conventions of the embedding:
* Rust `Result<T, E>` plus `panic!` is modelled by `QRes`, whose `fatal`
  constructor models a Rust panic (unrecoverable abort), distinct from a
  recoverable `err`.
* Machine integers are modelled by `Nat`/`Int`; the one place where
  wrap-around matters (`u64 as i64`) applies an explicit `% 2 ^ 64`.
* `f32`/`f64` literals are modelled exactly by `Rat` (finite floats).
* External collaborator types from the tantivy engine (`Field`,
  `FieldType`, `Value`, `Term`, query objects) are modelled structurally:
  only their constructors and the operations this layer performs on them.
-/

namespace PgSearch

/-- tantivy `Field`: the opaque physical field handle; the schema builder
assigns ids sequentially in registration order. -/
structure Field where
  id : Nat
deriving DecidableEq, Repr

/-- tantivy `FieldType`, reduced to its constructor tag (the options payload
is not consulted by the query compiler except as an opaque value type). -/
inductive FieldType where
  | str
  | u64
  | i64
  | f64
  | bool
  | date
  | facet
  | bytes
  | jsonObject
  | ipAddr
deriving DecidableEq, Repr

/-- tantivy `schema::Value`: the runtime representation of a literal value.
`date` carries the timestamp in microseconds (tantivy `DateTime`);
`preTokStr` is reduced to its text and `jsonObject` to a flat list of
entries, since this layer never inspects those payloads (it only panics on
them in `value_to_term`). -/
inductive Value where
  | str (s : String)
  | preTokStr (text : String)
  | u64 (v : Nat)
  | i64 (v : Int)
  | f64 (v : Rat)
  | bool (b : Bool)
  | date (micros : Int)
  | facet (path : String)
  | bytes (bs : List Nat)
  | jsonObject (entries : List (String × String))
  | ipAddr (v : Nat)
deriving DecidableEq, Repr

/-- tantivy `Term`: a type-specific encoded literal bound to a physical
field, one constructor per `Term::from_field_*` constructor used by the
source. -/
inductive Term where
  | text (f : Field) (s : String)
  | u64 (f : Field) (v : Nat)
  | i64 (f : Field) (v : Int)
  | f64 (f : Field) (v : Rat)
  | bool (f : Field) (b : Bool)
  | date (f : Field) (micros : Int)
  | facet (f : Field) (path : String)
  | bytes (f : Field) (bs : List Nat)
  | ipAddr (f : Field) (v : Nat)
deriving DecidableEq, Repr

/-- `QueryError` from src/pg_search/src/query/mod.rs: the recoverable error
taxonomy of query compilation.  Error payloads of external error types are
reduced to strings. -/
inductive QueryError where
  | wrongFieldType (field : String)
  | fieldMapJsonValue (cause : String)
  | fieldMapJsonObject
  | nonIndexedField (field : String)
  | fieldTypeMismatch
  | regexError (cause : String) (pattern : String)
  | parseError (cause : String) (query_string : String)
deriving DecidableEq, Repr

/-- Outcome of a fallible Rust computation: `ok` and `err` model
`Result::Ok`/`Result::Err`; `fatal` models a `panic!` (an unrecoverable
abort that propagates past every `?` and `if let Ok(..)`). -/
inductive QRes (α : Type) where
  | ok (a : α)
  | err (e : QueryError)
  | fatal (msg : String)
deriving DecidableEq, Repr

namespace QRes

def bind {α β : Type} : QRes α → (α → QRes β) → QRes β
  | .ok a, f => f a
  | .err e, _ => .err e
  | .fatal m, _ => .fatal m

def isOk {α : Type} : QRes α → Bool
  | .ok _ => true
  | _ => false

def isFatal {α : Type} : QRes α → Bool
  | .fatal _ => true
  | _ => false

def toOption {α : Type} : QRes α → Option α
  | .ok a => some a
  | _ => none

end QRes

/-! ### Model of the chrono date parsing used by `value_to_term`

`value_to_term` parses string values against Date fields with
`chrono::NaiveDateTime::parse_from_str`, first with format
`"%Y-%m-%dT%H:%M:%SZ"`, then with `"%Y-%m-%dT%H:%M:%S%.fZ"`, and converts
the result with `.and_utc().timestamp_micros()`.  chrono is an external
collaborator; the two concrete format strings are modelled here as parsers
over the character list of the input. -/

/-- Take at most `w` leading decimal digits, returning their value, how many
were taken, and the rest of the input. -/
def takeDigits : Nat → List Char → (Nat × Nat × List Char)
  | 0, cs => (0, 0, cs)
  | Nat.succ w, c :: cs =>
    if c.isDigit then
      let (v, n, rest) := takeDigits w cs
      ((c.toNat - '0'.toNat) * 10 ^ n + v, n + 1, rest)
    else (0, 0, c :: cs)
  | Nat.succ _, [] => (0, 0, [])

/-- Parse a fixed-width-at-most numeric field (chrono `Numeric` item):
at least one digit, at most `w` digits. -/
def parseNum (w : Nat) (cs : List Char) : Option (Nat × List Char) :=
  let (v, n, rest) := takeDigits w cs
  if n = 0 then none else some (v, rest)

/-- Expect a literal character. -/
def expectChar (c : Char) : List Char → Option (List Char)
  | c' :: cs => if c' = c then some cs else none
  | [] => none

/-- Gregorian leap year. -/
def isLeapYear (y : Int) : Bool :=
  (y % 4 = 0 && y % 100 ≠ 0) || y % 400 = 0

/-- Days in a month of the proleptic Gregorian calendar. -/
def daysInMonth (y : Int) (m : Nat) : Nat :=
  if m = 2 then (if isLeapYear y then 29 else 28)
  else if m = 4 || m = 6 || m = 9 || m = 11 then 30
  else 31

/-- Days from 1970-01-01 to year `y`, month `m`, day `d` (civil-from-days
inverse, standard era-based formula over the proleptic Gregorian
calendar). -/
def daysFromCivil (y : Int) (m d : Nat) : Int :=
  let y' : Int := y - (if m ≤ 2 then 1 else 0)
  let era : Int := (if 0 ≤ y' then y' else y' - 399) / 400
  let yoe : Int := y' - era * 400
  let mp : Int := ((m : Int) + 9) % 12
  let doy : Int := (153 * mp + 2) / 5 + (d : Int) - 1
  let doe : Int := yoe * 365 + yoe / 4 - yoe / 100 + doy
  era * 146097 + doe - 719468

/-- Parse the common prefix `YYYY-MM-DDTHH:MM:SS` of both chrono formats,
with chrono's range validation, returning the epoch timestamp in seconds
and the remaining input. -/
def parseDateTimeCore (cs : List Char) : Option (Int × List Char) :=
  (parseNum 4 cs).bind fun (y, cs) =>
  (expectChar '-' cs).bind fun cs =>
  (parseNum 2 cs).bind fun (mo, cs) =>
  (expectChar '-' cs).bind fun cs =>
  (parseNum 2 cs).bind fun (d, cs) =>
  (expectChar 'T' cs).bind fun cs =>
  (parseNum 2 cs).bind fun (h, cs) =>
  (expectChar ':' cs).bind fun cs =>
  (parseNum 2 cs).bind fun (mi, cs) =>
  (expectChar ':' cs).bind fun cs =>
  (parseNum 2 cs).bind fun (s, cs) =>
  if 1 ≤ mo && mo ≤ 12 && 1 ≤ d && d ≤ daysInMonth (y : Int) mo
      && h ≤ 23 && mi ≤ 59 && s ≤ 59 then
    some (daysFromCivil (y : Int) mo d * 86400
            + (h : Int) * 3600 + (mi : Int) * 60 + (s : Int), cs)
  else none

/-- chrono `NaiveDateTime::parse_from_str` with format
`"%Y-%m-%dT%H:%M:%SZ"`, composed with `.and_utc().timestamp_micros()`:
returns the timestamp in microseconds. -/
def parseDateSeconds (text : String) : Option Int :=
  (parseDateTimeCore text.data).bind fun (secs, cs) =>
  match expectChar 'Z' cs with
  | some [] => some (secs * 1000000)
  | _ => none

/-- chrono's `%.f` item: either empty, or a dot followed by one to nine
fractional-second digits; returns the fraction in nanoseconds. -/
def parseDotFraction : List Char → Option (Nat × List Char)
  | '.' :: cs =>
    let (v, n, rest) := takeDigits 9 cs
    if n = 0 then none else some (v * 10 ^ (9 - n), rest)
  | cs => some (0, cs)

/-- chrono `NaiveDateTime::parse_from_str` with format
`"%Y-%m-%dT%H:%M:%S%.fZ"`, composed with `.and_utc().timestamp_micros()`
(nanoseconds truncate to microseconds). -/
def parseDateFractional (text : String) : Option Int :=
  (parseDateTimeCore text.data).bind fun (secs, cs) =>
  (parseDotFraction cs).bind fun (nanos, cs) =>
  match expectChar 'Z' cs with
  | some [] => some (secs * 1000000 + (nanos : Int) / 1000)
  | _ => none

/-! ### `value_to_term` (src/pg_search/src/query/mod.rs, lines 460-503) -/

/-- The effect of Rust's `u64 as i64` cast: reinterpret the 64-bit pattern
as a signed two's-complement value. -/
def u64AsI64 (v : Nat) : Int :=
  if v % 2 ^ 64 < 2 ^ 63 then ((v % 2 ^ 64 : Nat) : Int)
  else ((v % 2 ^ 64 : Nat) : Int) - 2 ^ 64

/-- `value_to_term`: encode a literal value against a field's declared
physical type.  String values against Date fields are parsed first with the
seconds-precision pattern, then with the fractional-seconds pattern;
unsigned literals against signed fields are reinterpreted; pre-tokenized
text and JSON objects, and unsigned literals against non-integer fields,
panic. -/
def value_to_term (field : Field) (value : Value) (field_type : FieldType) : QRes Term :=
  match value with
  | .str text =>
    match field_type with
    | .date =>
      match parseDateSeconds text with
      | some dt => .ok (.date field dt)
      | none =>
        match parseDateFractional text with
        | some dt => .ok (.date field dt)
        | none => .err .fieldTypeMismatch
    | _ => .ok (.text field text)
  | .preTokStr _ => .fatal "pre-tokenized text cannot be converted to term"
  | .u64 v =>
    match field_type with
    | .i64 => .ok (.i64 field (u64AsI64 v))
    | .u64 => .ok (.u64 field v)
    | _ => .fatal "invalid field type for u64 value"
  | .i64 v => .ok (.i64 field v)
  | .f64 v => .ok (.f64 field v)
  | .bool b => .ok (.bool field b)
  | .date d => .ok (.date field d)
  | .facet p => .ok (.facet field p)
  | .bytes bs => .ok (.bytes field bs)
  | .jsonObject _ => .fatal "json cannot be converted to term"
  | .ipAddr a => .ok (.ipAddr field a)


/-! ### The query-input algebra (src/pg_search/src/query/mod.rs, lines 20-94) -/

/-- `std::ops::Bound`: a range endpoint. -/
inductive RBound (α : Type) where
  | included (v : α)
  | excluded (v : α)
  | unbounded
deriving DecidableEq, Repr

/-- `SearchQueryInput`: the serializable query-input tree, one constructor
per variant, fields in source order.  The source field `prefix` of
`FuzzyTerm` is named `prefixFlag` here. -/
inductive SearchQueryInput where
  | all
  | boolean (must should must_not : List SearchQueryInput)
  | boost (query : SearchQueryInput) (boostv : Rat)
  | constScore (query : SearchQueryInput) (score : Rat)
  | disjunctionMax (disjuncts : List SearchQueryInput) (tie_breaker : Option Rat)
  | empty
  | fastFieldRangeWeight (field : String) (lower_bound upper_bound : RBound Nat)
  | fuzzyTerm (field : String) (value : String) (distance : Option Nat)
      (tranposition_cost_one : Option Bool) (prefixFlag : Option Bool)
  | moreLikeThis (min_doc_frequency max_doc_frequency : Option Nat)
      (min_term_frequency max_query_terms min_word_length max_word_length : Option Nat)
      (boost_factor : Option Rat) (stop_words : Option (List String))
      (fields : List (String × Value))
  | parseV (query_string : String)
  | phrase (field : String) (phrases : List String) (slop : Option Nat)
  | phrasePrefix (field : String) (phrases : List String) (max_expansions : Option Nat)
  | range (field : String) (lower_bound upper_bound : RBound Value)
  | regex (field : String) (pattern : String)
  | term (field : Option String) (value : Value)
  | termSet (terms : List (String × Value))

/-- tantivy `query_grammar::Occur`. -/
inductive Occur where
  | must
  | should
  | mustNot
deriving DecidableEq, Repr

/-- tantivy `IndexRecordOption`. -/
inductive IndexRecordOption where
  | basic
  | withFreqs
  | withFreqsAndPositions
deriving DecidableEq, Repr

/-- The executable query objects this layer constructs, one constructor per
tantivy query type used by `into_tantivy_query`.  `fuzzyTerm`'s `isPrefix`
records whether the source called `FuzzyTermQuery::new_prefix` (true) or
`FuzzyTermQuery::new` (false).  `phrase`'s slop and `phrasePrefix`'s
max-expansions keep the `Option`: `none` means the engine default was left
in place.  `parsed` wraps the opaque query returned by the free-text
parser. -/
inductive TQuery where
  | all
  | empty
  | boolean (subqueries : List (Occur × TQuery))
  | boost (query : TQuery) (boostv : Rat)
  | constScore (query : TQuery) (score : Rat)
  | disjunctionMax (disjuncts : List TQuery) (tie_breaker : Option Rat)
  | fastFieldRangeWeight (field : String) (lower_bound upper_bound : RBound Nat)
  | fuzzyTerm (t : Term) (distance : Nat) (tranposition_cost_one : Bool) (isPrefix : Bool)
  | moreLikeThis (min_doc_frequency max_doc_frequency : Option Nat)
      (min_term_frequency max_query_terms min_word_length max_word_length : Option Nat)
      (boost_factor : Option Rat) (stop_words : Option (List String))
      (fields : List (Field × List Value))
  | parsed (query_string : String)
  | phrase (terms : List Term) (slop : Option Nat)
  | phrasePrefix (terms : List Term) (max_expansions : Option Nat)
  | rangeQuery (field : String) (value_type : FieldType) (lower_bound upper_bound : RBound Term)
  | regex (pattern : String) (f : Field)
  | termQuery (t : Term) (record : IndexRecordOption)
  | termSet (terms : List Term)

/-- The `AsFieldType<String>` capability the compiler receives: field
iteration and name resolution (`fields` / `as_field_type` of the trait). -/
structure FieldLookup where
  fields : List (FieldType × Field)
  as_field_type : String → Option (FieldType × Field)

namespace FieldLookup

/-- Trait method `is_field_type`: does the value's runtime shape match the
field's resolved type? -/
def is_field_type (fl : FieldLookup) (from_ : String) (value : Value) : Bool :=
  match fl.as_field_type from_, value with
  | some (.str, _), .str _ => true
  | some (.u64, _), .u64 _ => true
  | some (.i64, _), .i64 _ => true
  | some (.f64, _), .f64 _ => true
  | some (.bool, _), .bool _ => true
  | some (.date, _), .date _ => true
  | some (.facet, _), .facet _ => true
  | some (.bytes, _), .bytes _ => true
  | some (.jsonObject, _), .jsonObject _ => true
  | some (.ipAddr, _), .ipAddr _ => true
  | _, _ => false

/-- Trait method `as_str`. -/
def as_str (fl : FieldLookup) (from_ : String) : Option Field :=
  (fl.as_field_type from_).bind fun (ft, field) =>
    match ft with
    | .str => some field
    | _ => none

/-- Trait method `as_u64`. -/
def as_u64 (fl : FieldLookup) (from_ : String) : Option Field :=
  (fl.as_field_type from_).bind fun (ft, field) =>
    match ft with
    | .u64 => some field
    | _ => none

/-- Trait method `as_i64`. -/
def as_i64 (fl : FieldLookup) (from_ : String) : Option Field :=
  (fl.as_field_type from_).bind fun (ft, field) =>
    match ft with
    | .i64 => some field
    | _ => none

end FieldLookup

/-- The free-text query parser collaborator (`tantivy::query::QueryParser`):
`parse_query` either yields an executable query or a parse error. -/
def QParser : Type := String → Except String TQuery

/-- A range bound is mapped through `value_to_term` when it carries a value
(the `Range` arm's two `match` expressions). -/
def mapBound (field : Field) (field_type : FieldType) :
    RBound Value → QRes (RBound Term)
  | .included v => (value_to_term field v field_type).bind fun t => .ok (.included t)
  | .excluded v => (value_to_term field v field_type).bind fun t => .ok (.excluded t)
  | .unbounded => .ok .unbounded

/-- The field-absent `Term` arm's loop: encode the value against every
schema field, keeping the successful terms and silently skipping fields
whose encoding returns a recoverable error (`if let Ok(term) = ..`).
A panic inside `value_to_term` aborts the whole loop. -/
def collectTermsAllFields : List (FieldType × Field) → Value → QRes (List Term)
  | [], _ => .ok []
  | (field_type, field) :: rest, value =>
    match value_to_term field value field_type with
    | .ok t => (collectTermsAllFields rest value).bind fun ts => .ok (t :: ts)
    | .err _ => collectTermsAllFields rest value
    | .fatal m => .fatal m

/-- The `TermSet` arm's loop: resolve and encode every (field, value) pair;
the first unresolved name aborts with `NonIndexedField`, the first encoding
error aborts with that error. -/
def collectTermSet (fl : FieldLookup) : List (String × Value) → QRes (List Term)
  | [] => .ok []
  | (field_name, field_value) :: rest =>
    match fl.as_field_type field_name with
    | none => .err (.nonIndexedField field_name)
    | some (field_type, field) =>
      (value_to_term field field_value field_type).bind fun t =>
      (collectTermSet fl rest).bind fun ts => .ok (t :: ts)

/-- The `MoreLikeThis` arm's grouping map: `fields_map.entry(field)
.or_insert_with(Vec::new)` followed by a push (iteration order modelled as
first-insertion order). -/
def mltInsert (m : List (Field × List Value)) (field : Field) (value : Value) :
    List (Field × List Value) :=
  match m with
  | [] => [(field, [value])]
  | (f, vs) :: rest =>
    if f = field then (f, vs ++ [value]) :: rest
    else (f, vs) :: mltInsert rest field value

/-- The `MoreLikeThis` arm's loop over the (field, value) pairs: the type
check failure aborts with `WrongFieldType`, otherwise pairs accumulate into
the grouping map. -/
def mltCollect (fl : FieldLookup) : List (String × Value) → List (Field × List Value) →
    QRes (List (Field × List Value))
  | [], m => .ok m
  | (field_name, value) :: rest, m =>
    if fl.is_field_type field_name value then
      match fl.as_field_type field_name with
      | none => .err (.wrongFieldType field_name)
      | some (_, field) => mltCollect fl rest (mltInsert m field value)
    else .err (.wrongFieldType field_name)

/-- `RegexQuery::from_pattern` collaborator.  Modelled from the spec: the
engine compiles the pattern and can reject it; pattern-compilation
internals are out of scope, so the model accepts every pattern (no claim
exercises the rejection branch). -/
def regexFromPattern (pattern : String) (field : Field) : Except String TQuery :=
  .ok (.regex pattern field)

mutual

/-- `SearchQueryInput::into_tantivy_query`
(src/pg_search/src/query/mod.rs, lines 180-457): recursively lower a
query-input tree to an executable query against the field lookup and the
free-text parser. -/
def into_tantivy_query (q : SearchQueryInput) (field_lookup : FieldLookup)
    (qp : QParser) : QRes TQuery :=
  match q with
  | .all => .ok .all
  | .boolean must should must_not =>
    (compileOccurs .must must field_lookup qp).bind fun l1 =>
    (compileOccurs .should should field_lookup qp).bind fun l2 =>
    (compileOccurs .mustNot must_not field_lookup qp).bind fun l3 =>
    .ok (.boolean (l1 ++ l2 ++ l3))
  | .boost query boostv =>
    (into_tantivy_query query field_lookup qp).bind fun inner =>
    .ok (.boost inner boostv)
  | .constScore query score =>
    (into_tantivy_query query field_lookup qp).bind fun inner =>
    .ok (.constScore inner score)
  | .disjunctionMax disjuncts tie_breaker =>
    (compileList disjuncts field_lookup qp).bind fun ds =>
    .ok (.disjunctionMax ds tie_breaker)
  | .empty => .ok .empty
  | .fastFieldRangeWeight field lower_bound upper_bound =>
    match (field_lookup.as_u64 field).orElse (fun _ => field_lookup.as_i64 field) with
    | none => .err (.wrongFieldType field)
    | some _ => .ok (.fastFieldRangeWeight field lower_bound upper_bound)
  | .fuzzyTerm field value distance tranposition_cost_one prefixFlag =>
    match field_lookup.as_str field with
    | none => .err (.wrongFieldType field)
    | some f =>
      let t := Term.text f value
      let distance := distance.getD 1
      let tco := tranposition_cost_one.getD false
      if prefixFlag.getD false then
        .ok (.fuzzyTerm t distance tco false)
      else
        .ok (.fuzzyTerm t distance tco true)
  | .moreLikeThis a b c d e f g h fields =>
    (mltCollect field_lookup fields []).bind fun fields_map =>
    .ok (.moreLikeThis a b c d e f g h fields_map)
  | .phrasePrefix field phrases max_expansions =>
    match field_lookup.as_str field with
    | none => .err (.wrongFieldType field)
    | some f =>
      .ok (.phrasePrefix (phrases.map fun p => Term.text f p) max_expansions)
  | .parseV query_string =>
    match qp query_string with
    | .ok q => .ok q
    | .error e => .err (.parseError e query_string)
  | .phrase field phrases slop =>
    match field_lookup.as_str field with
    | none => .err (.wrongFieldType field)
    | some f =>
      .ok (.phrase (phrases.map fun p => Term.text f p) slop)
  | .range field lower_bound upper_bound =>
    match field_lookup.as_field_type field with
    | none => .err (.wrongFieldType field)
    | some (field_type, f) =>
      (mapBound f field_type lower_bound).bind fun lb =>
      (mapBound f field_type upper_bound).bind fun ub =>
      .ok (.rangeQuery field field_type lb ub)
  | .regex field pattern =>
    match field_lookup.as_str field with
    | none => .err (.wrongFieldType field)
    | some f =>
      match regexFromPattern pattern f with
      | .ok q => .ok q
      | .error e => .err (.regexError e pattern)
  | .term field value =>
    match field with
    | some fname =>
      match field_lookup.as_field_type fname with
      | none => .err (.nonIndexedField fname)
      | some (field_type, f) =>
        (value_to_term f value field_type).bind fun t =>
        .ok (.termQuery t .withFreqsAndPositions)
    | none =>
      (collectTermsAllFields field_lookup.fields value).bind fun terms =>
      .ok (.termSet terms)
  | .termSet terms =>
    (collectTermSet field_lookup terms).bind fun ts =>
    .ok (.termSet ts)

/-- The `Boolean` arm's per-list loop: compile each subquery and tag it
with the occurrence. -/
def compileOccurs (occ : Occur) (l : List SearchQueryInput)
    (field_lookup : FieldLookup) (qp : QParser) : QRes (List (Occur × TQuery)) :=
  match l with
  | [] => .ok []
  | q :: rest =>
    (into_tantivy_query q field_lookup qp).bind fun tq =>
    (compileOccurs occ rest field_lookup qp).bind fun ts =>
    .ok ((occ, tq) :: ts)

/-- The `DisjunctionMax` arm's `collect::<Result<_, _>>`. -/
def compileList (l : List SearchQueryInput) (field_lookup : FieldLookup)
    (qp : QParser) : QRes (List TQuery) :=
  match l with
  | [] => .ok []
  | q :: rest =>
    (into_tantivy_query q field_lookup qp).bind fun tq =>
    (compileList rest field_lookup qp).bind fun ts =>
    .ok (tq :: ts)

end

/-! ### The schema resolver (src/pg_search/src/schema/mod.rs) -/

/-- `SearchFieldType`: the logical type a field is declared as. -/
inductive SearchFieldType where
  | text
  | i64
  | f64
  | u64
  | bool
  | json
  | date
deriving DecidableEq, Repr

/-- Modelled from the spec: the tokenizers crate `SearchTokenizer`
(its definition is not under src/); only the `Default` selection and its
JSON name matter to the claims, other selections are kept opaque by
name. -/
inductive SearchTokenizer where
  | default
  | other (name : String)
deriving DecidableEq, Repr

/-- Modelled from the spec: the tokenizers crate `SearchNormalizer`
(not under src/); `Raw` is the documented default. -/
inductive SearchNormalizer where
  | raw
  | lowercase
deriving DecidableEq, Repr

/-- `SearchFieldConfig`: per-type-family field configuration, one variant
per family, fields in source order. -/
inductive SearchFieldConfig where
  | text (indexed fast stored fieldnorms : Bool) (tokenizer : SearchTokenizer)
      (record : IndexRecordOption) (normalizer : SearchNormalizer)
  | json (indexed fast stored expand_dots : Bool) (tokenizer : SearchTokenizer)
      (record : IndexRecordOption) (normalizer : SearchNormalizer)
  | numeric (indexed fast stored : Bool)
  | boolean (indexed fast stored : Bool)
  | date (indexed fast stored : Bool)
  | ctid
deriving DecidableEq, Repr

/-- `SearchField`: one schema entry (`SearchFieldId` and `SearchFieldName`
newtypes are inlined to their payloads). -/
structure SearchField where
  id : Field
  name : String
  config : SearchFieldConfig
  type_ : SearchFieldType
deriving DecidableEq, Repr

/-- `SearchIndexSchemaError` (src/pg_search/src/schema/mod.rs,
lines 683-693); the `InvalidPgOid` payload is reduced to a string. -/
inductive SearchIndexSchemaError where
  | invalidNumericType (t : SearchFieldType)
  | invalidPgOid (oid : String)
  | noKeyFieldSpecified
  | noCtidFieldSpecified
deriving DecidableEq, Repr

/-- `HashMap::insert`: overwrite the binding if the key is present,
otherwise add it. -/
def hmInsert (m : List (String × Nat)) (k : String) (v : Nat) : List (String × Nat) :=
  match m with
  | [] => [(k, v)]
  | (k', v') :: rest => if k' = k then (k, v) :: rest else (k', v') :: hmInsert rest k v

/-- `HashMap::get`. -/
def hmGet (m : List (String × Nat)) (k : String) : Option Nat :=
  match m with
  | [] => none
  | (k', v') :: rest => if k' = k then some v' else hmGet rest k

/-- The enumerate-and-insert loop of `SearchIndexSchema::build_lookup`. -/
def build_lookup_aux (idx : Nat) (fs : List SearchField) (acc : List (String × Nat)) :
    List (String × Nat) :=
  match fs with
  | [] => acc
  | f :: rest => build_lookup_aux (idx + 1) rest (hmInsert acc f.name idx)

/-- `SearchIndexSchema::build_lookup` (lines 614-624): name → position map
over the field sequence. -/
def build_lookup (search_fields : List SearchField) : List (String × Nat) :=
  build_lookup_aux 0 search_fields []

/-- `SearchIndexSchema` (lines 549-563).  The tantivy `Schema` is modelled
as the list of registered physical field types, indexed by `Field.id`; the
lookup cache keeps its `Option`. -/
structure SearchIndexSchema where
  fields : List SearchField
  key : Nat
  ctid : Nat
  schema : List FieldType
  lookup : Option (List (String × Nat))
deriving DecidableEq, Repr

/-- The physical type the schema builder registers for a declaration: a
Ctid configuration always registers an unsigned-64 field, every other
configuration registers by the declared logical type
(`builder.add_*_field` dispatch in `SearchIndexSchema::new`). -/
def registeredFieldType (config : SearchFieldConfig) (field_type : SearchFieldType) :
    FieldType :=
  match config with
  | .ctid => .u64
  | _ =>
    match field_type with
    | .text => .str
    | .i64 => .i64
    | .u64 => .u64
    | .f64 => .f64
    | .bool => .bool
    | .json => .jsonObject
    | .date => .date

/-- The registration loop of `SearchIndexSchema::new`: walk the
declarations with their position, register each physical field (ids are
assigned sequentially), thread the ctid index (initially 0, overwritten at
each Ctid-configured entry), and build the field entries. -/
def schemaNewAux : List (String × SearchFieldConfig × SearchFieldType) → Nat → Nat →
    (List SearchField × List FieldType × Nat)
  | [], _, ctid_index => ([], [], ctid_index)
  | (name, config, field_type) :: rest, index, ctid_index =>
    let ctid_index' := if config = SearchFieldConfig.ctid then index else ctid_index
    let t := registeredFieldType config field_type
    let (sfs, ts, c) := schemaNewAux rest (index + 1) ctid_index'
    (⟨⟨index⟩, name, config, field_type⟩ :: sfs, t :: ts, c)

/-- `SearchIndexSchema::new` (lines 566-612): register every declaration,
record the ctid index, build the lookup eagerly, and return the schema.
The source has no failing path: it returns `Ok` for every input. -/
def SearchIndexSchema.new
    (fields : List (String × SearchFieldConfig × SearchFieldType))
    (key_index : Nat) : Except SearchIndexSchemaError SearchIndexSchema :=
  let (search_fields, types, ctid_index) := schemaNewAux fields 0 0
  .ok { fields := search_fields
        key := key_index
        ctid := ctid_index
        schema := types
        lookup := some (build_lookup search_fields) }

/-- `SearchIndexSchema::get_search_field` (lines 647-654): consult the
cache when present, otherwise rebuild the lookup in place. -/
def SearchIndexSchema.get_search_field (s : SearchIndexSchema) (name : String) :
    Option SearchField :=
  match s.lookup with
  | some lookup => (hmGet lookup name).bind fun idx => s.fields[idx]?
  | none => (hmGet (build_lookup s.fields) name).bind fun idx => s.fields[idx]?

/-- tantivy `Schema::get_field_entry(..).field_type()`: the physical type
registered for a field id.  `get_field_entry` panics on an id the schema
does not contain; ids produced by `SearchIndexSchema::new` are always in
range, so the out-of-range default is never reached from built schemas. -/
def tantivyFieldType (schema : List FieldType) (f : Field) : FieldType :=
  (schema[f.id]?).getD .str

/-- The `impl AsFieldType<String> for SearchIndexSchema`
(lines 703-722): field iteration and name resolution against the tantivy
schema registered types. -/
def SearchIndexSchema.asFieldLookup (s : SearchIndexSchema) : FieldLookup where
  fields := s.fields.map fun sf => (tantivyFieldType s.schema sf.id, sf.id)
  as_field_type := fun from_ =>
    (s.get_search_field from_).map fun sf => (tantivyFieldType s.schema sf.id, sf.id)

/-! ### JSON surface (serde_json model) and field-configuration parsing
(src/pg_search/src/schema/mod.rs, lines 156-372) -/

/-- serde_json `Number`: non-negative integers, negative integers, floats
(floats modelled exactly by `Rat`). -/
inductive JNumber where
  | posInt (n : Nat)
  | negInt (n : Int)
  | float (q : Rat)
deriving DecidableEq, Repr

/-- serde_json `Value`, the self-describing JSON document model. -/
inductive Json where
  | null
  | bool (b : Bool)
  | num (n : JNumber)
  | str (s : String)
  | arr (xs : List Json)
  | obj (kvs : List (String × Json))

/-- serde_json `Map::get`. -/
def jsonGet (kvs : List (String × Json)) (k : String) : Option Json :=
  match kvs with
  | [] => none
  | (k', v) :: rest => if k' = k then some v else jsonGet rest k

/-- `Value::as_object`. -/
def Json.asObject : Json → Option (List (String × Json))
  | .obj kvs => some kvs
  | _ => none

/-- `Value::as_bool`. -/
def Json.asBool : Json → Option Bool
  | .bool b => some b
  | _ => none

/-- The per-key pattern shared by every `*_from_json` constructor: a present
key must be a JSON boolean, an absent key takes the family default.  (The
source quotes the key name in the message; the quotes are elided here.) -/
def getBoolOr (kvs : List (String × Json)) (key : String) (dflt : Bool) :
    Except String Bool :=
  match jsonGet kvs key with
  | some v =>
    match v.asBool with
    | some b => .ok b
    | none => .error (key ++ " field should be a boolean")
  | none => .ok dflt

/-- Modelled from the spec: `SearchTokenizer::from_json_value` of the
tokenizers crate (not under src/) — the default tokenizer selection
deserializes from the JSON string "default"; other selections are kept by
name; a non-string is rejected. -/
def SearchTokenizer.from_json_value : Json → Except String SearchTokenizer
  | .str s => if s = "default" then .ok .default else .ok (.other s)
  | _ => .error "tokenizer should be a string"

/-- The tokenizer clause of `text_from_json`/`json_from_json`: absent means
`SearchTokenizer::Default`. -/
def getTokenizerOr (kvs : List (String × Json)) : Except String SearchTokenizer :=
  match jsonGet kvs "tokenizer" with
  | some v => SearchTokenizer.from_json_value v
  | none => .ok .default

/-- Modelled from the spec: serde deserialization of tantivy
`IndexRecordOption` (external collaborator); the JSON names "basic",
"freq" and "position" are the ones the source fixes in its `ToString`
impl (src/pg_search/src/schema/mod.rs, lines 673-681). -/
def decodeIndexRecordOption : Json → Except String IndexRecordOption
  | .str s =>
    if s = "basic" then .ok .basic
    else if s = "freq" then .ok .withFreqs
    else if s = "position" then .ok .withFreqsAndPositions
    else .error "unknown index record option"
  | _ => .error "index record option should be a string"

/-- The record clause: absent means `default_as_freqs_and_positions`. -/
def getRecordOr (kvs : List (String × Json)) : Except String IndexRecordOption :=
  match jsonGet kvs "record" with
  | some v => decodeIndexRecordOption v
  | none => .ok .withFreqsAndPositions

/-- Modelled from the spec: serde deserialization of `SearchNormalizer`
(tokenizers crate, not under src/); `Raw` is the documented default and
deserializes from "raw". -/
def decodeNormalizer : Json → Except String SearchNormalizer
  | .str s =>
    if s = "raw" then .ok .raw
    else if s = "lowercase" then .ok .lowercase
    else .error "unknown normalizer"
  | _ => .error "normalizer should be a string"

/-- The normalizer clause: absent means `SearchNormalizer::Raw`. -/
def getNormalizerOr (kvs : List (String × Json)) : Except String SearchNormalizer :=
  match jsonGet kvs "normalizer" with
  | some v => decodeNormalizer v
  | none => .ok .raw

/-- `SearchFieldConfig::text_from_json` (lines 156-213). -/
def text_from_json (value : Json) : Except String SearchFieldConfig :=
  match value.asObject with
  | none => .error "Expected a JSON object for Text configuration"
  | some obj =>
    (getBoolOr obj "indexed" true).bind fun indexed =>
    (getBoolOr obj "fast" false).bind fun fast =>
    (getBoolOr obj "stored" true).bind fun stored =>
    (getBoolOr obj "fieldnorms" true).bind fun fieldnorms =>
    (getTokenizerOr obj).bind fun tokenizer =>
    (getRecordOr obj).bind fun record =>
    (getNormalizerOr obj).bind fun normalizer =>
    .ok (.text indexed fast stored fieldnorms tokenizer record normalizer)

/-- `SearchFieldConfig::json_from_json` (lines 215-272). -/
def json_from_json (value : Json) : Except String SearchFieldConfig :=
  match value.asObject with
  | none => .error "Expected a JSON object for Json configuration"
  | some obj =>
    (getBoolOr obj "indexed" true).bind fun indexed =>
    (getBoolOr obj "fast" false).bind fun fast =>
    (getBoolOr obj "stored" true).bind fun stored =>
    (getBoolOr obj "expand_dots" true).bind fun expand_dots =>
    (getTokenizerOr obj).bind fun tokenizer =>
    (getRecordOr obj).bind fun record =>
    (getNormalizerOr obj).bind fun normalizer =>
    .ok (.json indexed fast stored expand_dots tokenizer record normalizer)

/-- `SearchFieldConfig::numeric_from_json` (lines 274-305). -/
def numeric_from_json (value : Json) : Except String SearchFieldConfig :=
  match value.asObject with
  | none => .error "Expected a JSON object for Numeric configuration"
  | some obj =>
    (getBoolOr obj "indexed" true).bind fun indexed =>
    (getBoolOr obj "fast" true).bind fun fast =>
    (getBoolOr obj "stored" true).bind fun stored =>
    .ok (.numeric indexed fast stored)

/-- `SearchFieldConfig::boolean_from_json` (lines 307-338). -/
def boolean_from_json (value : Json) : Except String SearchFieldConfig :=
  match value.asObject with
  | none => .error "Expected a JSON object for Boolean configuration"
  | some obj =>
    (getBoolOr obj "indexed" true).bind fun indexed =>
    (getBoolOr obj "fast" true).bind fun fast =>
    (getBoolOr obj "stored" true).bind fun stored =>
    .ok (.boolean indexed fast stored)

/-- `SearchFieldConfig::date_from_json` (lines 340-371). -/
def date_from_json (value : Json) : Except String SearchFieldConfig :=
  match value.asObject with
  | none => .error "Expected a JSON object for Date configuration"
  | some obj =>
    (getBoolOr obj "indexed" true).bind fun indexed =>
    (getBoolOr obj "fast" true).bind fun fast =>
    (getBoolOr obj "stored" true).bind fun stored =>
    .ok (.date indexed fast stored)

/-- Add an explicit entry for a key only when the object does not already
carry it (used to build the fully-specified document of a partially
specified one). -/
def insertIfAbsent (kvs : List (String × Json)) (k : String) (v : Json) :
    List (String × Json) :=
  if (jsonGet kvs k).isNone then kvs ++ [(k, v)] else kvs

/-- Make every default of the Text family explicit. -/
def fillTextDefaults (kvs : List (String × Json)) : List (String × Json) :=
  insertIfAbsent (insertIfAbsent (insertIfAbsent (insertIfAbsent (insertIfAbsent
    (insertIfAbsent (insertIfAbsent kvs
      "indexed" (.bool true))
      "fast" (.bool false))
      "stored" (.bool true))
      "fieldnorms" (.bool true))
      "tokenizer" (.str "default"))
      "record" (.str "position"))
      "normalizer" (.str "raw")

/-- Make every default of the Json family explicit. -/
def fillJsonDefaults (kvs : List (String × Json)) : List (String × Json) :=
  insertIfAbsent (insertIfAbsent (insertIfAbsent (insertIfAbsent (insertIfAbsent
    (insertIfAbsent (insertIfAbsent kvs
      "indexed" (.bool true))
      "fast" (.bool false))
      "stored" (.bool true))
      "expand_dots" (.bool true))
      "tokenizer" (.str "default"))
      "record" (.str "position"))
      "normalizer" (.str "raw")

/-- Make every default of the Numeric/Boolean/Date families explicit. -/
def fillNumericDefaults (kvs : List (String × Json)) : List (String × Json) :=
  insertIfAbsent (insertIfAbsent (insertIfAbsent kvs
    "indexed" (.bool true))
    "fast" (.bool true))
    "stored" (.bool true)

/-! ### Serialization model for `SearchQueryInput`

`SearchQueryInput` derives serde `Serialize`/`Deserialize` (externally
tagged union, field names as declared), and the `PostgresType` derive makes
JSON its text representation.  The embedded values of type
`tantivy::schema::Value` use the serde implementation of tantivy itself, which is
an external collaborator; it is modelled from the spec and from the two
facts the source itself records in comments (src/pg_search/src/query/mod.rs,
lines 465-466 and 486-487): serialization turns dates into strings, and
numbers deserialize as unsigned when non-negative, so a non-negative signed
literal comes back as an unsigned one. -/

/-- Modelled from the spec: the string form a date value serializes to
(the source only records that dates become strings; the exact text is
immaterial, no decoder maps any string back to a date). -/
def formatDateString (micros : Int) : String :=
  "datetime:" ++ toString micros

/-- Serialization of tantivy `schema::Value` (external collaborator, see
the section comment). -/
def encodeValue : Value → Json
  | .str s => .str s
  | .preTokStr t => .obj [("PreTokStr", .str t)]
  | .u64 n => .num (.posInt n)
  | .i64 i => if i < 0 then .num (.negInt i) else .num (.posInt i.toNat)
  | .f64 q => .num (.float q)
  | .bool b => .bool b
  | .date micros => .str (formatDateString micros)
  | .facet p => .obj [("Facet", .str p)]
  | .bytes bs => .obj [("Bytes", .arr (bs.map fun b => .num (.posInt b)))]
  | .jsonObject entries => .obj [("JsonObject", .obj (entries.map fun p => (p.1, .str p.2)))]
  | .ipAddr a => .obj [("IpAddr", .num (.posInt a))]

def decodeByteList : List Json → Option (List Nat)
  | [] => some []
  | .num (.posInt n) :: rest => (decodeByteList rest).map fun l => n :: l
  | _ => none

def decodeEntryList : List (String × Json) → Option (List (String × String))
  | [] => some []
  | (k, .str s) :: rest => (decodeEntryList rest).map fun l => (k, s) :: l
  | _ => none

/-- Deserialization of tantivy `schema::Value` (external collaborator):
strings decode as string literals (so a serialized date comes back as a
string), non-negative numbers as unsigned (so a serialized non-negative
signed literal comes back unsigned), negative numbers as signed. -/
def decodeValue : Json → Option Value
  | .str s => some (.str s)
  | .num (.posInt n) => some (.u64 n)
  | .num (.negInt i) => some (.i64 i)
  | .num (.float q) => some (.f64 q)
  | .bool b => some (.bool b)
  | .obj [("PreTokStr", .str t)] => some (.preTokStr t)
  | .obj [("Facet", .str p)] => some (.facet p)
  | .obj [("Bytes", .arr xs)] => (decodeByteList xs).map .bytes
  | .obj [("JsonObject", .obj kvs)] => (decodeEntryList kvs).map .jsonObject
  | .obj [("IpAddr", .num (.posInt a))] => some (.ipAddr a)
  | _ => none

def encodeOptNat : Option Nat → Json
  | none => .null
  | some n => .num (.posInt n)

def decodeOptNat : Json → Option (Option Nat)
  | .null => some none
  | .num (.posInt n) => some (some n)
  | _ => none

def encodeOptBool : Option Bool → Json
  | none => .null
  | some b => .bool b

def decodeOptBool : Json → Option (Option Bool)
  | .null => some none
  | .bool b => some (some b)
  | _ => none

def encodeOptRat : Option Rat → Json
  | none => .null
  | some q => .num (.float q)

def decodeOptRat : Json → Option (Option Rat)
  | .null => some none
  | .num (.float q) => some (some q)
  | _ => none

def encodeOptStr : Option String → Json
  | none => .null
  | some s => .str s

def decodeOptStr : Json → Option (Option String)
  | .null => some none
  | .str s => some (some s)
  | _ => none

def decodeJNat : Json → Option Nat
  | .num (.posInt n) => some n
  | _ => none

/-- serde encoding of `std::ops::Bound`: an externally tagged union with
variants `Included`, `Excluded`, `Unbounded`. -/
def encodeBoundWith {α : Type} (enc : α → Json) : RBound α → Json
  | .included v => .obj [("Included", enc v)]
  | .excluded v => .obj [("Excluded", enc v)]
  | .unbounded => .str "Unbounded"

def decodeBoundWith {α : Type} (dec : Json → Option α) : Json → Option (RBound α)
  | .str s => if s = "Unbounded" then some .unbounded else none
  | .obj [("Included", j)] => (dec j).map .included
  | .obj [("Excluded", j)] => (dec j).map .excluded
  | _ => none

def encodeStrList (xs : List String) : List Json :=
  xs.map .str

def decodeStrList : List Json → Option (List String)
  | [] => some []
  | .str s :: rest => (decodeStrList rest).map fun l => s :: l
  | _ => none

def encodeOptStrList : Option (List String) → Json
  | none => .null
  | some xs => .arr (encodeStrList xs)

def decodeOptStrList : Json → Option (Option (List String))
  | .null => some none
  | .arr xs => (decodeStrList xs).map some
  | _ => none

/-- serde encoding of a `(String, Value)` tuple: a two-element array. -/
def encodePair (p : String × Value) : Json :=
  .arr [.str p.1, encodeValue p.2]

def encodePairList (ps : List (String × Value)) : List Json :=
  ps.map encodePair

def decodePair : Json → Option (String × Value)
  | .arr [.str k, vj] => (decodeValue vj).map fun v => (k, v)
  | _ => none

def decodePairList : List Json → Option (List (String × Value))
  | [] => some []
  | j :: rest =>
    (decodePair j).bind fun p =>
    (decodePairList rest).map fun l => p :: l

mutual

/-- serde serialization of `SearchQueryInput`: externally tagged, field
names exactly as declared in the source. -/
def encodeQuery : SearchQueryInput → Json
  | .all => .str "All"
  | .boolean must should must_not =>
    .obj [("Boolean", .obj [("must", .arr (encodeQueryList must)),
                            ("should", .arr (encodeQueryList should)),
                            ("must_not", .arr (encodeQueryList must_not))])]
  | .boost query boostv =>
    .obj [("Boost", .obj [("query", encodeQuery query),
                          ("boost", .num (.float boostv))])]
  | .constScore query score =>
    .obj [("ConstScore", .obj [("query", encodeQuery query),
                               ("score", .num (.float score))])]
  | .disjunctionMax disjuncts tie_breaker =>
    .obj [("DisjunctionMax", .obj [("disjuncts", .arr (encodeQueryList disjuncts)),
                                   ("tie_breaker", encodeOptRat tie_breaker)])]
  | .empty => .str "Empty"
  | .fastFieldRangeWeight field lower_bound upper_bound =>
    .obj [("FastFieldRangeWeight",
           .obj [("field", .str field),
                 ("lower_bound", encodeBoundWith (fun n => .num (.posInt n)) lower_bound),
                 ("upper_bound", encodeBoundWith (fun n => .num (.posInt n)) upper_bound)])]
  | .fuzzyTerm field value distance tranposition_cost_one prefixFlag =>
    .obj [("FuzzyTerm", .obj [("field", .str field),
                              ("value", .str value),
                              ("distance", encodeOptNat distance),
                              ("tranposition_cost_one", encodeOptBool tranposition_cost_one),
                              ("prefix", encodeOptBool prefixFlag)])]
  | .moreLikeThis a b c d e f g h fields =>
    .obj [("MoreLikeThis", .obj [("min_doc_frequency", encodeOptNat a),
                                 ("max_doc_frequency", encodeOptNat b),
                                 ("min_term_frequency", encodeOptNat c),
                                 ("max_query_terms", encodeOptNat d),
                                 ("min_word_length", encodeOptNat e),
                                 ("max_word_length", encodeOptNat f),
                                 ("boost_factor", encodeOptRat g),
                                 ("stop_words", encodeOptStrList h),
                                 ("fields", .arr (encodePairList fields))])]
  | .parseV query_string =>
    .obj [("Parse", .obj [("query_string", .str query_string)])]
  | .phrase field phrases slop =>
    .obj [("Phrase", .obj [("field", .str field),
                           ("phrases", .arr (encodeStrList phrases)),
                           ("slop", encodeOptNat slop)])]
  | .phrasePrefix field phrases max_expansions =>
    .obj [("PhrasePrefix", .obj [("field", .str field),
                                 ("phrases", .arr (encodeStrList phrases)),
                                 ("max_expansions", encodeOptNat max_expansions)])]
  | .range field lower_bound upper_bound =>
    .obj [("Range", .obj [("field", .str field),
                          ("lower_bound", encodeBoundWith encodeValue lower_bound),
                          ("upper_bound", encodeBoundWith encodeValue upper_bound)])]
  | .regex field pattern =>
    .obj [("Regex", .obj [("field", .str field), ("pattern", .str pattern)])]
  | .term field value =>
    .obj [("Term", .obj [("field", encodeOptStr field), ("value", encodeValue value)])]
  | .termSet terms =>
    .obj [("TermSet", .obj [("terms", .arr (encodePairList terms))])]

def encodeQueryList : List SearchQueryInput → List Json
  | [] => []
  | q :: rest => encodeQuery q :: encodeQueryList rest

end

/-- Decoder for the `FastFieldRangeWeight` payload. -/
def decodeFFRWBody : Json → Option SearchQueryInput
  | .obj [("field", .str field), ("lower_bound", lj), ("upper_bound", uj)] =>
    (decodeBoundWith decodeJNat lj).bind fun lb =>
    (decodeBoundWith decodeJNat uj).map fun ub =>
    .fastFieldRangeWeight field lb ub
  | _ => none

/-- Decoder for the `FuzzyTerm` payload. -/
def decodeFuzzyBody : Json → Option SearchQueryInput
  | .obj [("field", .str field), ("value", .str value), ("distance", dj),
          ("tranposition_cost_one", tj), ("prefix", pj)] =>
    (decodeOptNat dj).bind fun d =>
    (decodeOptBool tj).bind fun t =>
    (decodeOptBool pj).map fun p =>
    .fuzzyTerm field value d t p
  | _ => none

/-- Decoder for the `MoreLikeThis` payload. -/
def decodeMLTBody : Json → Option SearchQueryInput
  | .obj [("min_doc_frequency", aj), ("max_doc_frequency", bj),
          ("min_term_frequency", cj), ("max_query_terms", dj),
          ("min_word_length", ej), ("max_word_length", fj),
          ("boost_factor", gj), ("stop_words", hj), ("fields", .arr fs)] =>
    (decodeOptNat aj).bind fun a =>
    (decodeOptNat bj).bind fun b =>
    (decodeOptNat cj).bind fun c =>
    (decodeOptNat dj).bind fun d =>
    (decodeOptNat ej).bind fun e =>
    (decodeOptNat fj).bind fun f =>
    (decodeOptRat gj).bind fun g =>
    (decodeOptStrList hj).bind fun h =>
    (decodePairList fs).map fun fields =>
    .moreLikeThis a b c d e f g h fields
  | _ => none

/-- Decoder for the `Parse` payload. -/
def decodeParseBody : Json → Option SearchQueryInput
  | .obj [("query_string", .str query_string)] => some (.parseV query_string)
  | _ => none

/-- Decoder for the `Phrase` payload. -/
def decodePhraseBody : Json → Option SearchQueryInput
  | .obj [("field", .str field), ("phrases", .arr ps), ("slop", sj)] =>
    (decodeStrList ps).bind fun phrases =>
    (decodeOptNat sj).map fun slop =>
    .phrase field phrases slop
  | _ => none

/-- Decoder for the `PhrasePrefix` payload. -/
def decodePhrasePrefixBody : Json → Option SearchQueryInput
  | .obj [("field", .str field), ("phrases", .arr ps), ("max_expansions", mj)] =>
    (decodeStrList ps).bind fun phrases =>
    (decodeOptNat mj).map fun me =>
    .phrasePrefix field phrases me
  | _ => none

/-- Decoder for the `Range` payload. -/
def decodeRangeBody : Json → Option SearchQueryInput
  | .obj [("field", .str field), ("lower_bound", lj), ("upper_bound", uj)] =>
    (decodeBoundWith decodeValue lj).bind fun lb =>
    (decodeBoundWith decodeValue uj).map fun ub =>
    .range field lb ub
  | _ => none

/-- Decoder for the `Regex` payload. -/
def decodeRegexBody : Json → Option SearchQueryInput
  | .obj [("field", .str field), ("pattern", .str pattern)] =>
    some (.regex field pattern)
  | _ => none

/-- Decoder for the `Term` payload. -/
def decodeTermBody : Json → Option SearchQueryInput
  | .obj [("field", fj), ("value", vj)] =>
    (decodeOptStr fj).bind fun field =>
    (decodeValue vj).map fun v =>
    .term field v
  | _ => none

/-- Decoder for the `TermSet` payload. -/
def decodeTermSetBody : Json → Option SearchQueryInput
  | .obj [("terms", .arr ts)] =>
    (decodePairList ts).map fun terms => .termSet terms
  | _ => none

mutual

/-- serde deserialization of `SearchQueryInput`, on the canonical shapes
produced by `encodeQuery` (the real deserializer also accepts reordered
fields; only the canonical shapes matter for the round-trip property):
dispatch on the variant tag, then decode the payload. -/
def decodeQuery : Json → Option SearchQueryInput
  | .str s =>
    if s = "All" then some .all
    else if s = "Empty" then some .empty
    else none
  | .obj [(tag, body)] =>
    if tag = "Boolean" then decodeBooleanBody body
    else if tag = "Boost" then decodeBoostBody body
    else if tag = "ConstScore" then decodeConstScoreBody body
    else if tag = "DisjunctionMax" then decodeDisjunctionMaxBody body
    else if tag = "FastFieldRangeWeight" then decodeFFRWBody body
    else if tag = "FuzzyTerm" then decodeFuzzyBody body
    else if tag = "MoreLikeThis" then decodeMLTBody body
    else if tag = "Parse" then decodeParseBody body
    else if tag = "Phrase" then decodePhraseBody body
    else if tag = "PhrasePrefix" then decodePhrasePrefixBody body
    else if tag = "Range" then decodeRangeBody body
    else if tag = "Regex" then decodeRegexBody body
    else if tag = "Term" then decodeTermBody body
    else if tag = "TermSet" then decodeTermSetBody body
    else none
  | _ => none

/-- Decoder for the `Boolean` payload. -/
def decodeBooleanBody : Json → Option SearchQueryInput
  | .obj [("must", .arr ms), ("should", .arr ss), ("must_not", .arr ns)] =>
    (decodeQueryList ms).bind fun must =>
    (decodeQueryList ss).bind fun should =>
    (decodeQueryList ns).bind fun must_not =>
    some (.boolean must should must_not)
  | _ => none

/-- Decoder for the `Boost` payload. -/
def decodeBoostBody : Json → Option SearchQueryInput
  | .obj [("query", qj), ("boost", .num (.float b))] =>
    (decodeQuery qj).map fun q => .boost q b
  | _ => none

/-- Decoder for the `ConstScore` payload. -/
def decodeConstScoreBody : Json → Option SearchQueryInput
  | .obj [("query", qj), ("score", .num (.float b))] =>
    (decodeQuery qj).map fun q => .constScore q b
  | _ => none

/-- Decoder for the `DisjunctionMax` payload. -/
def decodeDisjunctionMaxBody : Json → Option SearchQueryInput
  | .obj [("disjuncts", .arr ds), ("tie_breaker", tj)] =>
    (decodeQueryList ds).bind fun disjuncts =>
    (decodeOptRat tj).map fun tie => .disjunctionMax disjuncts tie
  | _ => none

def decodeQueryList : List Json → Option (List SearchQueryInput)
  | [] => some []
  | j :: rest =>
    (decodeQuery j).bind fun q =>
    (decodeQueryList rest).bind fun qs =>
    some (q :: qs)

end

/-- A value that survives the encode/decode round trip: everything except
a date (which serializes to a string) and a non-negative signed literal
(which deserializes as unsigned). -/
def cleanValue : Value → Bool
  | .i64 i => decide (i < 0)
  | .date _ => false
  | _ => true

def cleanBound : RBound Value → Bool
  | .included v => cleanValue v
  | .excluded v => cleanValue v
  | .unbounded => true

mutual

/-- Does every embedded literal value of the tree survive the round
trip? -/
def cleanQuery : SearchQueryInput → Bool
  | .boolean must should must_not =>
    cleanQueryList must && cleanQueryList should && cleanQueryList must_not
  | .boost query _ => cleanQuery query
  | .constScore query _ => cleanQuery query
  | .disjunctionMax disjuncts _ => cleanQueryList disjuncts
  | .moreLikeThis _ _ _ _ _ _ _ _ fields => fields.all fun p => cleanValue p.2
  | .range _ lower_bound upper_bound => cleanBound lower_bound && cleanBound upper_bound
  | .term _ value => cleanValue value
  | .termSet terms => terms.all fun p => cleanValue p.2
  | _ => true

def cleanQueryList : List SearchQueryInput → Bool
  | [] => true
  | q :: rest => cleanQuery q && cleanQueryList rest

end

/-! ### Concrete fixtures (the scenario schema of the spec) -/

/-- The declaration list of the spec scenario: `[("id", Numeric{}, Integer)
as key, ("body", Text{}, Text), ("ctid", Ctid, _)]`, with the per-family
defaults spelled out. -/
def demoFields : List (String × SearchFieldConfig × SearchFieldType) :=
  [("id", .numeric true true true, .i64),
   ("body", .text true false true true .default .withFreqsAndPositions .raw, .text),
   ("ctid", .ctid, .u64)]

/-- The scenario schema (construction always succeeds in the source). -/
def demoSchema : SearchIndexSchema :=
  match SearchIndexSchema.new demoFields 0 with
  | .ok s => s
  | .error _ => ⟨[], 0, 0, [], none⟩

def demoLookup : FieldLookup :=
  demoSchema.asFieldLookup

/-- A declaration list with a Date-typed field, for the Range-over-Date
scenarios. -/
def dateFields : List (String × SearchFieldConfig × SearchFieldType) :=
  [("id", .numeric true true true, .i64),
   ("created", .date true true true, .date),
   ("ctid", .ctid, .u64)]

def dateSchema : SearchIndexSchema :=
  match SearchIndexSchema.new dateFields 0 with
  | .ok s => s
  | .error _ => ⟨[], 0, 0, [], none⟩

def dateLookup : FieldLookup :=
  dateSchema.asFieldLookup

/-- A free-text parser stub for evaluations that never reach the `Parse`
arm. -/
def nullQP : QParser :=
  fun s => .error s

/-! ### Helper functions used by the theorem statements -/

/-- The last field of the sequence carrying the given name (what the
rebuilt lookup resolves to, since later inserts overwrite earlier ones). -/
def findLastByName : List SearchField → String → Option SearchField
  | [], _ => none
  | f :: rest, name =>
    match findLastByName rest name with
    | some g => some g
    | none => if f.name = name then some f else none

/-- The index the lookup built from position `idx` onward maps a name to:
the last matching position. -/
def lastIdxFrom : List SearchField → Nat → String → Option Nat
  | [], _, _ => none
  | f :: rest, idx, name =>
    match lastIdxFrom rest (idx + 1) name with
    | some i => some i
    | none => if f.name = name then some idx else none

/-- Does a single (field, value) pair of a `TermSet` resolve and encode? -/
def pairEncodes (fl : FieldLookup) (p : String × Value) : Bool :=
  match fl.as_field_type p.1 with
  | none => false
  | some (field_type, field) => (value_to_term field p.2 field_type).isOk

/-- The terms an unqualified `Term` query collects: one per schema field
whose encoding of the value succeeds. -/
def okTermsOf (fields : List (FieldType × Field)) (value : Value) : List Term :=
  fields.filterMap fun p => (value_to_term p.2 value p.1).toOption

/-! ## Theorems -/

/-! ### Supporting lemmas -/

theorem hmGet_hmInsert (m : List (String × Nat)) (k : String) (v : Nat) (q : String) :
    hmGet (hmInsert m k v) q = if k = q then some v else hmGet m q := by
  induction m with
  | nil =>
    simp [hmInsert, hmGet]
  | cons kv rest ih =>
    obtain ⟨k', v'⟩ := kv
    by_cases h1 : k' = k
    · subst h1
      by_cases h2 : k' = q <;> simp [hmInsert, hmGet, h2]
    · by_cases h2 : k' = q
      · subst h2
        have h3 : ¬ k = k' := fun h => h1 h.symm
        simp [hmInsert, hmGet, h1, h3]
      · simp [hmInsert, hmGet, h1, h2, ih]

theorem build_lookup_aux_spec (fs : List SearchField) :
    ∀ (idx : Nat) (acc : List (String × Nat)) (q : String),
    hmGet (build_lookup_aux idx fs acc) q =
      match lastIdxFrom fs idx q with
      | some i => some i
      | none => hmGet acc q := by
  induction fs with
  | nil =>
    intro idx acc q
    simp [build_lookup_aux, lastIdxFrom]
  | cons f rest ih =>
    intro idx acc q
    simp only [build_lookup_aux, lastIdxFrom]
    rw [ih]
    cases h : lastIdxFrom rest (idx + 1) q with
    | some i => simp
    | none =>
      rw [hmGet_hmInsert]
      by_cases hf : f.name = q <;> simp [hf]

theorem lastIdxFrom_bounds (fs : List SearchField) :
    ∀ (idx : Nat) (q : String) (i : Nat),
    lastIdxFrom fs idx q = some i → idx ≤ i ∧ i < idx + fs.length := by
  induction fs with
  | nil =>
    intro idx q i h
    simp [lastIdxFrom] at h
  | cons f rest ih =>
    intro idx q i h
    simp only [lastIdxFrom] at h
    cases h2 : lastIdxFrom rest (idx + 1) q with
    | some j =>
      rw [h2] at h
      cases h
      have := ih (idx + 1) q i h2
      simp only [List.length_cons]
      omega
    | none =>
      rw [h2] at h
      by_cases hf : f.name = q
      · simp [hf] at h
        subst h
        simp only [List.length_cons]
        omega
      · simp [hf] at h

theorem lastIdxFrom_getElem (fs : List SearchField) :
    ∀ (pre : List SearchField) (q : String),
    ((lastIdxFrom fs pre.length q).bind fun i => (pre ++ fs)[i]?) =
      findLastByName fs q := by
  induction fs with
  | nil =>
    intro pre q
    simp [lastIdxFrom, findLastByName]
  | cons f rest ih =>
    intro pre q
    have h2 := ih (pre ++ [f]) q
    have hlen : (pre ++ [f]).length = pre.length + 1 := by simp
    have happ : (pre ++ [f]) ++ rest = pre ++ f :: rest := by simp
    rw [hlen, happ] at h2
    simp only [lastIdxFrom, findLastByName]
    cases h : lastIdxFrom rest (pre.length + 1) q with
    | some i =>
      rw [h] at h2
      obtain ⟨lo, hi⟩ := lastIdxFrom_bounds rest (pre.length + 1) q i h
      have hlt : i < (pre ++ f :: rest).length := by
        simp only [List.length_append, List.length_cons]
        omega
      have hg := List.getElem?_eq_getElem hlt
      simp only [Option.some_bind] at h2 ⊢
      rw [← h2, hg]
    | none =>
      rw [h] at h2
      simp only [Option.none_bind] at h2
      rw [← h2]
      by_cases hf : f.name = q
      · have hgf : (pre ++ f :: rest)[pre.length]? = some f := by
          rw [List.getElem?_append_right (Nat.le_refl pre.length)]
          simp
        simp [hf, hgf]
      · simp [hf]

theorem findLastByName_isSome (fs : List SearchField) (q : String) :
    (findLastByName fs q).isSome = fs.any fun f => f.name == q := by
  induction fs with
  | nil => simp [findLastByName]
  | cons f rest ih =>
    simp only [findLastByName, List.any_cons]
    cases h : findLastByName rest q with
    | some g =>
      rw [h] at ih
      simp only [Option.isSome_some] at ih
      simp only [Option.isSome_some, ← ih]
      simp
    | none =>
      rw [h] at ih
      simp only [Option.isSome_none] at ih
      simp only [← ih, Bool.or_false]
      by_cases hf : f.name = q <;> simp [hf]

theorem findLastByName_name (fs : List SearchField) (q : String) :
    (findLastByName fs q).all (fun f => f.name == q) = true := by
  induction fs with
  | nil => simp [findLastByName]
  | cons f rest ih =>
    simp only [findLastByName]
    cases h : findLastByName rest q with
    | some g =>
      rw [h] at ih
      simpa using ih
    | none =>
      by_cases hf : f.name = q <;> simp [hf]

theorem collectTermSet_isOk (fl : FieldLookup) (ts : List (String × Value)) :
    (collectTermSet fl ts).isOk = ts.all (pairEncodes fl) := by
  induction ts with
  | nil => simp [collectTermSet, QRes.isOk]
  | cons p rest ih =>
    obtain ⟨name, v⟩ := p
    simp only [collectTermSet, List.all_cons, pairEncodes]
    cases h : fl.as_field_type name with
    | none => simp [QRes.isOk]
    | some ftf =>
      obtain ⟨ft, f⟩ := ftf
      cases hv : value_to_term f v ft with
      | ok t =>
        simp only [QRes.bind]
        cases hr : collectTermSet fl rest with
        | ok l => simp_all [QRes.bind, QRes.isOk]
        | err e => simp_all [QRes.bind, QRes.isOk]
        | fatal m => simp_all [QRes.bind, QRes.isOk]
      | err e => simp [hv, QRes.bind, QRes.isOk]
      | fatal m => simp [hv, QRes.bind, QRes.isOk]

theorem collectTermsAllFields_no_fatal (v : Value) (fields : List (FieldType × Field))
    (h : fields.all (fun p => !(value_to_term p.2 v p.1).isFatal) = true) :
    collectTermsAllFields fields v = .ok (okTermsOf fields v) := by
  induction fields with
  | nil => simp [collectTermsAllFields, okTermsOf]
  | cons p rest ih =>
    obtain ⟨ft, f⟩ := p
    simp only [List.all_cons, Bool.and_eq_true] at h
    obtain ⟨h1, h2⟩ := h
    simp only [collectTermsAllFields, okTermsOf, List.filterMap_cons]
    cases hv : value_to_term f v ft with
    | ok t =>
      rw [ih h2]
      simp [QRes.bind, okTermsOf, QRes.toOption]
    | err e =>
      rw [ih h2]
      simp [okTermsOf, QRes.toOption]
    | fatal m =>
      rw [hv] at h1
      simp [QRes.isFatal] at h1

theorem okTermsOf_length (fields : List (FieldType × Field)) (v : Value) :
    (okTermsOf fields v).length =
      (fields.filter fun p => (value_to_term p.2 v p.1).isOk).length := by
  induction fields with
  | nil => simp [okTermsOf]
  | cons p rest ih =>
    obtain ⟨ft, f⟩ := p
    simp only [okTermsOf, List.filterMap_cons, List.filter_cons]
    cases hv : value_to_term f v ft with
    | ok t => simpa [QRes.toOption, QRes.isOk, okTermsOf] using ih
    | err e => simpa [QRes.toOption, QRes.isOk, okTermsOf] using ih
    | fatal m => simpa [QRes.toOption, QRes.isOk, okTermsOf] using ih

/-! ### The claims -/

/-- C1: the reverse of the claim holds in the code.  The claim says
`FuzzyTerm` with `prefix: Some(true)` compiles to a prefix fuzzy query and
`prefix: None/Some(false)` to a whole-term one; the source inverts the
branch (`if prefix.unwrap_or(false)` selects `FuzzyTermQuery::new`, the
non-prefix constructor, and the else branch selects
`FuzzyTermQuery::new_prefix`).  On the scenario schema,
`FuzzyTerm{field:"body", value:"shoe", distance:None, prefix:Some(true)}`
compiles successfully with effective distance 1 and transposition cost
false, but to a NON-prefix fuzzy query, while omitting `prefix` produces a
prefix query. -/
theorem c1_fuzzy_prefix_inverted :
    into_tantivy_query
        (.fuzzyTerm "body" "shoe" none none (some true)) demoLookup nullQP
      = .ok (.fuzzyTerm (.text ⟨1⟩ "shoe") 1 false false)
    ∧ into_tantivy_query
        (.fuzzyTerm "body" "shoe" none none none) demoLookup nullQP
      = .ok (.fuzzyTerm (.text ⟨1⟩ "shoe") 1 false true) :=
  ⟨rfl, rfl⟩

/-- C2: the code does not reject a declaration list without a
Ctid-configured entry.  `SearchIndexSchema::new` returns `Ok` on
`[("id", Numeric, I64)]` (no Ctid entry), with `ctid` left at its
initializer 0, pointing at the Numeric-configured field `id`; the
`NoCtidFieldSpecified` error the claim requires is never produced. -/
theorem c2_missing_ctid_accepted :
    SearchIndexSchema.new [("id", .numeric true true true, .i64)] 0
      = .ok ⟨[⟨⟨0⟩, "id", .numeric true true true, .i64⟩], 0, 0, [.i64],
             some [("id", 0)]⟩ :=
  rfl

/-- C3 (counterexample): the claimed scenario fails on the code.
`TermSet{[("body","shoes"),("id","shoes")]}` on the scenario schema does
NOT fail: a string value against the Integer-typed field `id` encodes as a
text term (`value_to_term` only special-cases strings against Date
fields), so the whole query compiles to a two-term set. -/
theorem c3_termset_counterexample :
    into_tantivy_query
        (.termSet [("body", .str "shoes"), ("id", .str "shoes")]) demoLookup nullQP
      = .ok (.termSet [.text ⟨1⟩ "shoes", .text ⟨0⟩ "shoes"]) :=
  rfl

/-- C3 (amended): `TermSet` compilation is all-or-nothing — it succeeds
exactly when every (field, value) pair individually resolves and encodes;
any unresolved name or failed encoding aborts the whole query and no
partial query is produced.  (The scenario of the claim is not such a
failure: a string against an Integer field encodes successfully as a text
term, see the counterexample.) -/
theorem c3_termset_all_or_nothing (fl : FieldLookup) (qp : QParser)
    (ts : List (String × Value)) :
    (into_tantivy_query (.termSet ts) fl qp).isOk = ts.all (pairEncodes fl) := by
  have h := collectTermSet_isOk fl ts
  simp only [into_tantivy_query]
  cases hc : collectTermSet fl ts <;> simp_all [QRes.bind, QRes.isOk]

/-- C4 (counterexample): the claim fails on the code.  An unqualified
`Term` query with an unsigned literal on a schema containing a Text field
does not skip the mismatching field: `value_to_term` panics on an unsigned
literal against a non-integer field, the `if let Ok(..)` filter cannot
catch a panic, and the whole compilation aborts instead of returning a
term-set query. -/
theorem c4_unqualified_term_counterexample :
    into_tantivy_query (.term none (.u64 1)) demoLookup nullQP
      = .fatal "invalid field type for u64 value" :=
  rfl

/-- C4 (amended): for every value whose encoding panics against none of
the schema fields, unqualified `Term` compilation never fails: fields whose
encoding returns a recoverable error are silently skipped and the compiled
term-set query holds exactly one term per schema field whose encoding of
the value succeeds.  (For an unsigned literal and a schema with a
non-integer field the premise fails and compilation aborts, see the
counterexample.) -/
theorem c4_unqualified_term_skips (fl : FieldLookup) (qp : QParser) (v : Value)
    (h : fl.fields.all (fun p => !(value_to_term p.2 v p.1).isFatal) = true) :
    into_tantivy_query (.term none v) fl qp
        = .ok (.termSet (okTermsOf fl.fields v))
    ∧ (okTermsOf fl.fields v).length
        = (fl.fields.filter fun p => (value_to_term p.2 v p.1).isOk).length := by
  constructor
  · simp only [into_tantivy_query]
    rw [collectTermsAllFields_no_fatal v fl.fields h]
    rfl
  · exact okTermsOf_length fl.fields v

/-- C4 (witness): the amended claim at a concrete input — the string value
"shoes" encodes against all three scenario fields (Integer, Text and the
unsigned ctid field all take text terms for a string), so the term set has
three terms. -/
theorem c4_unqualified_term_skips_witness :
    into_tantivy_query (.term none (.str "shoes")) demoLookup nullQP
        = .ok (.termSet (okTermsOf demoLookup.fields (.str "shoes")))
    ∧ (okTermsOf demoLookup.fields (.str "shoes")).length
        = (demoLookup.fields.filter
            fun p => (value_to_term p.2 (.str "shoes") p.1).isOk).length :=
  c4_unqualified_term_skips demoLookup nullQP (.str "shoes") rfl

/-- C5: string bounds against a Date-typed field in `Range` compilation.
The seconds-precision pattern accepts "2024-07-10T12:00:00Z"; the
fractional-seconds fallback accepts "2024-07-10T12:00:00.5Z" (the first
pattern rejects it); "not-a-date" is rejected by both patterns and
compilation fails with `FieldTypeMismatch`. -/
theorem c5_range_date_string_bounds :
    into_tantivy_query
        (.range "created" (.included (.str "2024-07-10T12:00:00Z")) .unbounded)
        dateLookup nullQP
      = .ok (.rangeQuery "created" .date
              (.included (.date ⟨1⟩ 1720612800000000)) .unbounded)
    ∧ parseDateSeconds "2024-07-10T12:00:00.5Z" = none
    ∧ into_tantivy_query
        (.range "created" (.included (.str "2024-07-10T12:00:00.5Z")) .unbounded)
        dateLookup nullQP
      = .ok (.rangeQuery "created" .date
              (.included (.date ⟨1⟩ 1720612800500000)) .unbounded)
    ∧ into_tantivy_query
        (.range "created" (.included (.str "not-a-date")) .unbounded)
        dateLookup nullQP
      = .err .fieldTypeMismatch :=
  ⟨rfl, rfl, rfl, rfl⟩

/-- C7: `get_search_field` returns identical results whether the lookup
cache is populated (with the lookup built from the field sequence, the only
cache the source ever stores) or absent; in both cases it resolves a
present name to the (last) field carrying it and an absent name to
none. -/
theorem c7_lookup_cache_equivalence (fields : List SearchField)
    (key ctid : Nat) (schema : List FieldType) (name : String) :
    SearchIndexSchema.get_search_field
        ⟨fields, key, ctid, schema, some (build_lookup fields)⟩ name
      = SearchIndexSchema.get_search_field ⟨fields, key, ctid, schema, none⟩ name
    ∧ SearchIndexSchema.get_search_field ⟨fields, key, ctid, schema, none⟩ name
      = findLastByName fields name
    ∧ (findLastByName fields name).isSome = (fields.any fun f => f.name == name)
    ∧ (findLastByName fields name).all (fun f => f.name == name) = true := by
  refine ⟨rfl, ?_, findLastByName_isSome fields name, findLastByName_name fields name⟩
  simp only [SearchIndexSchema.get_search_field]
  have h1 := build_lookup_aux_spec fields 0 [] name
  rw [show build_lookup fields = build_lookup_aux 0 fields [] from rfl, h1]
  have h2 := lastIdxFrom_getElem fields [] name
  simp only [List.length_nil, List.nil_append] at h2
  cases h : lastIdxFrom fields 0 name with
  | some i =>
    rw [h] at h2
    simpa using h2
  | none =>
    rw [h] at h2
    simpa [hmGet] using h2

/-- C9: an unsigned 64-bit literal against a signed Integer (I64) field is
not rejected: `value_to_term` reinterprets the bit pattern (the value
modulo 2 to the 64th, taken as a two\u{2019}s-complement signed 64-bit integer)
and produces a signed term on the field. -/
theorem c9_u64_reinterpreted_as_i64 (f : Field) (v : Nat) :
    value_to_term f (.u64 v) .i64 = .ok (.i64 f (u64AsI64 v))
    ∧ u64AsI64 v % 2 ^ 64 = (v : Int) % 2 ^ 64
    ∧ -(2 ^ 63) ≤ u64AsI64 v
    ∧ u64AsI64 v < 2 ^ 63 := by
  have hlt : v % 2 ^ 64 < 2 ^ 64 := Nat.mod_lt v (by norm_num)
  have hcast : ((v % 2 ^ 64 : Nat) : Int) = (v : Int) % 2 ^ 64 := by push_cast; ring_nf
  refine ⟨rfl, ?_, ?_, ?_⟩ <;> unfold u64AsI64 <;>
    by_cases h : v % 2 ^ 64 < 2 ^ 63 <;> simp only [h, if_true, if_false, reduceIte] <;>
    omega

/-- C9 (witness): the reinterpretation at the largest unsigned value — all
ones reinterprets to -1. -/
theorem c9_u64_reinterpreted_as_i64_witness :
    value_to_term ⟨0⟩ (.u64 18446744073709551615) .i64
      = .ok (.i64 ⟨0⟩ (u64AsI64 18446744073709551615))
    ∧ u64AsI64 18446744073709551615 = -1 :=
  ⟨(c9_u64_reinterpreted_as_i64 ⟨0⟩ 18446744073709551615).1, by decide⟩

/-- C10: an unsigned 64-bit literal against a field whose physical type is
neither I64 nor U64 makes `value_to_term` panic (a fatal abort, not a
recoverable `FieldTypeMismatch`), and a qualified `Term` compilation that
reaches this case aborts the whole compile call. -/
theorem c10_u64_wrong_field_type_panics (f : Field) (v : Nat) (ft : FieldType)
    (fl : FieldLookup) (qp : QParser) (name : String)
    (h1 : ft ≠ .i64) (h2 : ft ≠ .u64)
    (h3 : fl.as_field_type name = some (ft, f)) :
    value_to_term f (.u64 v) ft = .fatal "invalid field type for u64 value"
    ∧ into_tantivy_query (.term (some name) (.u64 v)) fl qp
        = .fatal "invalid field type for u64 value" := by
  have hv : value_to_term f (.u64 v) ft = .fatal "invalid field type for u64 value" := by
    cases ft <;> first | rfl | exact absurd rfl h1 | exact absurd rfl h2
  refine ⟨hv, ?_⟩
  simp only [into_tantivy_query, h3, hv, QRes.bind]

/-- C10 (witness): the panic at a concrete input — an unsigned literal
against the Text-typed field `body` of the scenario schema. -/
theorem c10_u64_wrong_field_type_panics_witness :
    value_to_term ⟨1⟩ (.u64 7) .str = .fatal "invalid field type for u64 value"
    ∧ into_tantivy_query (.term (some "body") (.u64 7)) demoLookup nullQP
        = .fatal "invalid field type for u64 value" :=
  c10_u64_wrong_field_type_panics ⟨1⟩ 7 .str demoLookup nullQP "body"
    (by decide) (by decide) rfl

theorem jsonGet_insertIfAbsent (kvs : List (String × Json)) (k : String) (v : Json)
    (q : String) :
    jsonGet (insertIfAbsent kvs k v) q =
      if k = q then some ((jsonGet kvs k).getD v) else jsonGet kvs q := by
  unfold insertIfAbsent
  cases h : jsonGet kvs k with
  | none =>
    simp only [h, Option.isNone_none, if_true]
    have happ : ∀ (a b : List (String × Json)) (x : String),
        jsonGet (a ++ b) x =
          match jsonGet a x with
          | some w => some w
          | none => jsonGet b x := by
      intro a b x
      induction a with
      | nil => simp [jsonGet]
      | cons kv rest ih =>
        obtain ⟨k', v'⟩ := kv
        by_cases hk : k' = x <;> simp [jsonGet, hk, ih]
    rw [happ]
    by_cases hq : k = q
    · subst hq
      simp [h, jsonGet]
    · have : jsonGet [(k, v)] q = none := by simp [jsonGet, hq]
      rw [this]
      simp [hq]
      cases jsonGet kvs q <;> simp
  | some x =>
    simp only [h, Option.isNone_some, if_false, Bool.false_eq_true]
    by_cases hq : k = q
    · subst hq
      simp [h]
    · simp [hq]

theorem getBoolOr_congr (kvs kvs' : List (String × Json)) (key : String) (dflt : Bool)
    (h : jsonGet kvs' key = some ((jsonGet kvs key).getD (.bool dflt))) :
    getBoolOr kvs' key dflt = getBoolOr kvs key dflt := by
  simp only [getBoolOr, h]
  cases hk : jsonGet kvs key with
  | none => simp [Json.asBool]
  | some v => simp

theorem getTokenizerOr_congr (kvs kvs' : List (String × Json))
    (h : jsonGet kvs' "tokenizer" = some ((jsonGet kvs "tokenizer").getD (.str "default"))) :
    getTokenizerOr kvs' = getTokenizerOr kvs := by
  simp only [getTokenizerOr, h]
  cases hk : jsonGet kvs "tokenizer" with
  | none => simp [SearchTokenizer.from_json_value]
  | some v => simp

theorem getRecordOr_congr (kvs kvs' : List (String × Json))
    (h : jsonGet kvs' "record" = some ((jsonGet kvs "record").getD (.str "position"))) :
    getRecordOr kvs' = getRecordOr kvs := by
  simp only [getRecordOr, h]
  cases hk : jsonGet kvs "record" with
  | none => simp [decodeIndexRecordOption]
  | some v => simp

theorem getNormalizerOr_congr (kvs kvs' : List (String × Json))
    (h : jsonGet kvs' "normalizer" = some ((jsonGet kvs "normalizer").getD (.str "raw"))) :
    getNormalizerOr kvs' = getNormalizerOr kvs := by
  simp only [getNormalizerOr, h]
  cases hk : jsonGet kvs "normalizer" with
  | none => simp [decodeNormalizer]
  | some v => simp

theorem text_from_json_fill (kvs : List (String × Json)) :
    text_from_json (.obj (fillTextDefaults kvs)) = text_from_json (.obj kvs) := by
  have h1 : jsonGet (fillTextDefaults kvs) "indexed"
      = some ((jsonGet kvs "indexed").getD (.bool true)) := by
    simp [fillTextDefaults, jsonGet_insertIfAbsent]
  have h2 : jsonGet (fillTextDefaults kvs) "fast"
      = some ((jsonGet kvs "fast").getD (.bool false)) := by
    simp [fillTextDefaults, jsonGet_insertIfAbsent]
  have h3 : jsonGet (fillTextDefaults kvs) "stored"
      = some ((jsonGet kvs "stored").getD (.bool true)) := by
    simp [fillTextDefaults, jsonGet_insertIfAbsent]
  have h4 : jsonGet (fillTextDefaults kvs) "fieldnorms"
      = some ((jsonGet kvs "fieldnorms").getD (.bool true)) := by
    simp [fillTextDefaults, jsonGet_insertIfAbsent]
  have h5 : jsonGet (fillTextDefaults kvs) "tokenizer"
      = some ((jsonGet kvs "tokenizer").getD (.str "default")) := by
    simp [fillTextDefaults, jsonGet_insertIfAbsent]
  have h6 : jsonGet (fillTextDefaults kvs) "record"
      = some ((jsonGet kvs "record").getD (.str "position")) := by
    simp [fillTextDefaults, jsonGet_insertIfAbsent]
  have h7 : jsonGet (fillTextDefaults kvs) "normalizer"
      = some ((jsonGet kvs "normalizer").getD (.str "raw")) := by
    simp [fillTextDefaults, jsonGet_insertIfAbsent]
  simp only [text_from_json, Json.asObject]
  rw [getBoolOr_congr kvs _ "indexed" true h1,
      getBoolOr_congr kvs _ "fast" false h2,
      getBoolOr_congr kvs _ "stored" true h3,
      getBoolOr_congr kvs _ "fieldnorms" true h4,
      getTokenizerOr_congr kvs _ h5,
      getRecordOr_congr kvs _ h6,
      getNormalizerOr_congr kvs _ h7]

theorem json_from_json_fill (kvs : List (String × Json)) :
    json_from_json (.obj (fillJsonDefaults kvs)) = json_from_json (.obj kvs) := by
  have h1 : jsonGet (fillJsonDefaults kvs) "indexed"
      = some ((jsonGet kvs "indexed").getD (.bool true)) := by
    simp [fillJsonDefaults, jsonGet_insertIfAbsent]
  have h2 : jsonGet (fillJsonDefaults kvs) "fast"
      = some ((jsonGet kvs "fast").getD (.bool false)) := by
    simp [fillJsonDefaults, jsonGet_insertIfAbsent]
  have h3 : jsonGet (fillJsonDefaults kvs) "stored"
      = some ((jsonGet kvs "stored").getD (.bool true)) := by
    simp [fillJsonDefaults, jsonGet_insertIfAbsent]
  have h4 : jsonGet (fillJsonDefaults kvs) "expand_dots"
      = some ((jsonGet kvs "expand_dots").getD (.bool true)) := by
    simp [fillJsonDefaults, jsonGet_insertIfAbsent]
  have h5 : jsonGet (fillJsonDefaults kvs) "tokenizer"
      = some ((jsonGet kvs "tokenizer").getD (.str "default")) := by
    simp [fillJsonDefaults, jsonGet_insertIfAbsent]
  have h6 : jsonGet (fillJsonDefaults kvs) "record"
      = some ((jsonGet kvs "record").getD (.str "position")) := by
    simp [fillJsonDefaults, jsonGet_insertIfAbsent]
  have h7 : jsonGet (fillJsonDefaults kvs) "normalizer"
      = some ((jsonGet kvs "normalizer").getD (.str "raw")) := by
    simp [fillJsonDefaults, jsonGet_insertIfAbsent]
  simp only [json_from_json, Json.asObject]
  rw [getBoolOr_congr kvs _ "indexed" true h1,
      getBoolOr_congr kvs _ "fast" false h2,
      getBoolOr_congr kvs _ "stored" true h3,
      getBoolOr_congr kvs _ "expand_dots" true h4,
      getTokenizerOr_congr kvs _ h5,
      getRecordOr_congr kvs _ h6,
      getNormalizerOr_congr kvs _ h7]

theorem numericFill_getBool (kvs : List (String × Json)) :
    jsonGet (fillNumericDefaults kvs) "indexed"
        = some ((jsonGet kvs "indexed").getD (.bool true))
    ∧ jsonGet (fillNumericDefaults kvs) "fast"
        = some ((jsonGet kvs "fast").getD (.bool true))
    ∧ jsonGet (fillNumericDefaults kvs) "stored"
        = some ((jsonGet kvs "stored").getD (.bool true)) := by
  refine ⟨?_, ?_, ?_⟩ <;> simp [fillNumericDefaults, jsonGet_insertIfAbsent]

theorem numeric_from_json_fill (kvs : List (String × Json)) :
    numeric_from_json (.obj (fillNumericDefaults kvs)) = numeric_from_json (.obj kvs) := by
  obtain ⟨h1, h2, h3⟩ := numericFill_getBool kvs
  simp only [numeric_from_json, Json.asObject]
  rw [getBoolOr_congr kvs _ "indexed" true h1,
      getBoolOr_congr kvs _ "fast" true h2,
      getBoolOr_congr kvs _ "stored" true h3]

theorem boolean_from_json_fill (kvs : List (String × Json)) :
    boolean_from_json (.obj (fillNumericDefaults kvs)) = boolean_from_json (.obj kvs) := by
  obtain ⟨h1, h2, h3⟩ := numericFill_getBool kvs
  simp only [boolean_from_json, Json.asObject]
  rw [getBoolOr_congr kvs _ "indexed" true h1,
      getBoolOr_congr kvs _ "fast" true h2,
      getBoolOr_congr kvs _ "stored" true h3]

theorem date_from_json_fill (kvs : List (String × Json)) :
    date_from_json (.obj (fillNumericDefaults kvs)) = date_from_json (.obj kvs) := by
  obtain ⟨h1, h2, h3⟩ := numericFill_getBool kvs
  simp only [date_from_json, Json.asObject]
  rw [getBoolOr_congr kvs _ "indexed" true h1,
      getBoolOr_congr kvs _ "fast" true h2,
      getBoolOr_congr kvs _ "stored" true h3]

/-- C8: decoding a partially-specified field-configuration object equals
decoding it with every absent key filled with its documented default, for
each of the five user-configurable families; the empty object decodes to
exactly the documented defaults (Text: indexed, not fast, stored,
fieldnorms, default tokenizer, freqs-and-positions record, raw normalizer;
Json: likewise plus expand_dots and not fast; Numeric, Boolean, Date:
indexed, fast, stored); a boolean key with a non-boolean JSON value and a
non-object top-level value are rejected with descriptive errors. -/
theorem c8_config_defaults :
    (∀ kvs, text_from_json (.obj (fillTextDefaults kvs)) = text_from_json (.obj kvs))
    ∧ (∀ kvs, json_from_json (.obj (fillJsonDefaults kvs)) = json_from_json (.obj kvs))
    ∧ (∀ kvs, numeric_from_json (.obj (fillNumericDefaults kvs))
        = numeric_from_json (.obj kvs))
    ∧ (∀ kvs, boolean_from_json (.obj (fillNumericDefaults kvs))
        = boolean_from_json (.obj kvs))
    ∧ (∀ kvs, date_from_json (.obj (fillNumericDefaults kvs))
        = date_from_json (.obj kvs))
    ∧ text_from_json (.obj [])
        = .ok (.text true false true true .default .withFreqsAndPositions .raw)
    ∧ json_from_json (.obj [])
        = .ok (.json true false true true .default .withFreqsAndPositions .raw)
    ∧ numeric_from_json (.obj []) = .ok (.numeric true true true)
    ∧ boolean_from_json (.obj []) = .ok (.boolean true true true)
    ∧ date_from_json (.obj []) = .ok (.date true true true)
    ∧ text_from_json (.obj [("indexed", .str "yes")])
        = .error "indexed field should be a boolean"
    ∧ text_from_json (.str "Text")
        = .error "Expected a JSON object for Text configuration" :=
  ⟨text_from_json_fill, json_from_json_fill, numeric_from_json_fill,
   boolean_from_json_fill, date_from_json_fill,
   rfl, rfl, rfl, rfl, rfl, rfl, rfl⟩

theorem decodeByteList_encode (bs : List Nat) :
    decodeByteList (bs.map fun b => Json.num (.posInt b)) = some bs := by
  induction bs with
  | nil => rfl
  | cons b rest ih => simp [decodeByteList, ih]

theorem decodeEntryList_encode (es : List (String × String)) :
    decodeEntryList (es.map fun p => (p.1, Json.str p.2)) = some es := by
  induction es with
  | nil => rfl
  | cons e rest ih =>
    obtain ⟨k, s⟩ := e
    simp [decodeEntryList, ih]

theorem decodeValue_encode (v : Value) (h : cleanValue v = true) :
    decodeValue (encodeValue v) = some v := by
  cases v with
  | str s => rfl
  | preTokStr t => rfl
  | u64 n => rfl
  | i64 i =>
    simp only [cleanValue, decide_eq_true_eq] at h
    simp [encodeValue, decodeValue, if_pos h]
  | f64 q => rfl
  | bool b => rfl
  | date m => simp [cleanValue] at h
  | facet p => rfl
  | bytes bs => simp [encodeValue, decodeValue, decodeByteList_encode]
  | jsonObject es => simp [encodeValue, decodeValue, decodeEntryList_encode]
  | ipAddr a => rfl

theorem decodeStrList_encode (xs : List String) :
    decodeStrList (encodeStrList xs) = some xs := by
  induction xs with
  | nil => rfl
  | cons x rest ih =>
    simp only [encodeStrList] at ih ⊢
    simp [decodeStrList, ih]

theorem decodePair_encode (p : String × Value) (h : cleanValue p.2 = true) :
    decodePair (encodePair p) = some p := by
  obtain ⟨k, v⟩ := p
  simp [encodePair, decodePair, decodeValue_encode v h]

theorem decodePairList_encode (ps : List (String × Value))
    (h : ps.all (fun p => cleanValue p.2) = true) :
    decodePairList (encodePairList ps) = some ps := by
  induction ps with
  | nil => rfl
  | cons p rest ih =>
    simp only [List.all_cons, Bool.and_eq_true] at h
    obtain ⟨h1, h2⟩ := h
    have ih2 := ih h2
    simp only [encodePairList] at ih2 ⊢
    simp [decodePairList, decodePair_encode p h1, ih2]

theorem decodeOptNat_encode (o : Option Nat) :
    decodeOptNat (encodeOptNat o) = some o := by
  cases o <;> rfl

theorem decodeOptBool_encode (o : Option Bool) :
    decodeOptBool (encodeOptBool o) = some o := by
  cases o <;> rfl

theorem decodeOptRat_encode (o : Option Rat) :
    decodeOptRat (encodeOptRat o) = some o := by
  cases o <;> rfl

theorem decodeOptStr_encode (o : Option String) :
    decodeOptStr (encodeOptStr o) = some o := by
  cases o <;> rfl

theorem decodeOptStrList_encode (o : Option (List String)) :
    decodeOptStrList (encodeOptStrList o) = some o := by
  cases o with
  | none => rfl
  | some xs => simp [encodeOptStrList, decodeOptStrList, decodeStrList_encode]

theorem decodeBoundNat_encode (b : RBound Nat) :
    decodeBoundWith decodeJNat (encodeBoundWith (fun n => .num (.posInt n)) b) = some b := by
  cases b <;> rfl

theorem decodeBoundValue_encode (b : RBound Value) (h : cleanBound b = true) :
    decodeBoundWith decodeValue (encodeBoundWith encodeValue b) = some b := by
  cases b with
  | included v =>
    simp only [cleanBound] at h
    simp [encodeBoundWith, decodeBoundWith, decodeValue_encode v h]
  | excluded v =>
    simp only [cleanBound] at h
    simp [encodeBoundWith, decodeBoundWith, decodeValue_encode v h]
  | unbounded => rfl

mutual

theorem decode_encode_q : ∀ (q : SearchQueryInput), cleanQuery q = true →
    decodeQuery (encodeQuery q) = some q
  | .all, _ => rfl
  | .boolean must should must_not, h => by
    simp only [cleanQuery, Bool.and_eq_true] at h
    obtain ⟨⟨h1, h2⟩, h3⟩ := h
    show ((decodeQueryList (encodeQueryList must)).bind fun m =>
          (decodeQueryList (encodeQueryList should)).bind fun s =>
          (decodeQueryList (encodeQueryList must_not)).bind fun mn =>
          some (SearchQueryInput.boolean m s mn))
        = some (.boolean must should must_not)
    rw [decode_encode_list must h1, decode_encode_list should h2,
        decode_encode_list must_not h3]
    rfl
  | .boost query b, h => by
    simp only [cleanQuery] at h
    show (decodeQuery (encodeQuery query)).map (fun q => SearchQueryInput.boost q b)
        = some (.boost query b)
    rw [decode_encode_q query h]
    rfl
  | .constScore query s, h => by
    simp only [cleanQuery] at h
    show (decodeQuery (encodeQuery query)).map (fun q => SearchQueryInput.constScore q s)
        = some (.constScore query s)
    rw [decode_encode_q query h]
    rfl
  | .disjunctionMax disjuncts tie, h => by
    simp only [cleanQuery] at h
    show ((decodeQueryList (encodeQueryList disjuncts)).bind fun ds =>
          (decodeOptRat (encodeOptRat tie)).map fun t =>
          SearchQueryInput.disjunctionMax ds t)
        = some (.disjunctionMax disjuncts tie)
    rw [decode_encode_list disjuncts h, decodeOptRat_encode]
    rfl
  | .empty, _ => rfl
  | .fastFieldRangeWeight field lb ub, _ => by
    show ((decodeBoundWith decodeJNat
            (encodeBoundWith (fun n => Json.num (.posInt n)) lb)).bind fun l =>
          (decodeBoundWith decodeJNat
            (encodeBoundWith (fun n => Json.num (.posInt n)) ub)).map fun u =>
          SearchQueryInput.fastFieldRangeWeight field l u)
        = some (.fastFieldRangeWeight field lb ub)
    rw [decodeBoundNat_encode, decodeBoundNat_encode]
    rfl
  | .fuzzyTerm field value d t p, _ => by
    show ((decodeOptNat (encodeOptNat d)).bind fun dd =>
          (decodeOptBool (encodeOptBool t)).bind fun tt =>
          (decodeOptBool (encodeOptBool p)).map fun pp =>
          SearchQueryInput.fuzzyTerm field value dd tt pp)
        = some (.fuzzyTerm field value d t p)
    rw [decodeOptNat_encode, decodeOptBool_encode, decodeOptBool_encode]
    rfl
  | .moreLikeThis a b cc d e f g hh fields, h => by
    simp only [cleanQuery] at h
    show ((decodeOptNat (encodeOptNat a)).bind fun a' =>
          (decodeOptNat (encodeOptNat b)).bind fun b' =>
          (decodeOptNat (encodeOptNat cc)).bind fun c' =>
          (decodeOptNat (encodeOptNat d)).bind fun d' =>
          (decodeOptNat (encodeOptNat e)).bind fun e' =>
          (decodeOptNat (encodeOptNat f)).bind fun f' =>
          (decodeOptRat (encodeOptRat g)).bind fun g' =>
          (decodeOptStrList (encodeOptStrList hh)).bind fun h' =>
          (decodePairList (encodePairList fields)).map fun fs =>
          SearchQueryInput.moreLikeThis a' b' c' d' e' f' g' h' fs)
        = some (.moreLikeThis a b cc d e f g hh fields)
    rw [decodeOptNat_encode, decodeOptNat_encode, decodeOptNat_encode,
        decodeOptNat_encode, decodeOptNat_encode, decodeOptNat_encode,
        decodeOptRat_encode, decodeOptStrList_encode, decodePairList_encode fields h]
    rfl
  | .parseV qs, _ => rfl
  | .phrase field phrases slop, _ => by
    show ((decodeStrList (encodeStrList phrases)).bind fun ph =>
          (decodeOptNat (encodeOptNat slop)).map fun sl =>
          SearchQueryInput.phrase field ph sl)
        = some (.phrase field phrases slop)
    rw [decodeStrList_encode, decodeOptNat_encode]
    rfl
  | .phrasePrefix field phrases me, _ => by
    show ((decodeStrList (encodeStrList phrases)).bind fun ph =>
          (decodeOptNat (encodeOptNat me)).map fun m =>
          SearchQueryInput.phrasePrefix field ph m)
        = some (.phrasePrefix field phrases me)
    rw [decodeStrList_encode, decodeOptNat_encode]
    rfl
  | .range field lb ub, h => by
    simp only [cleanQuery, Bool.and_eq_true] at h
    obtain ⟨h1, h2⟩ := h
    show ((decodeBoundWith decodeValue (encodeBoundWith encodeValue lb)).bind fun l =>
          (decodeBoundWith decodeValue (encodeBoundWith encodeValue ub)).map fun u =>
          SearchQueryInput.range field l u)
        = some (.range field lb ub)
    rw [decodeBoundValue_encode lb h1, decodeBoundValue_encode ub h2]
    rfl
  | .regex field pattern, _ => rfl
  | .term field value, h => by
    simp only [cleanQuery] at h
    show ((decodeOptStr (encodeOptStr field)).bind fun ff =>
          (decodeValue (encodeValue value)).map fun vv =>
          SearchQueryInput.term ff vv)
        = some (.term field value)
    rw [decodeOptStr_encode, decodeValue_encode value h]
    rfl
  | .termSet terms, h => by
    simp only [cleanQuery] at h
    show ((decodePairList (encodePairList terms)).map fun ts =>
          SearchQueryInput.termSet ts)
        = some (.termSet terms)
    rw [decodePairList_encode terms h]
    rfl

theorem decode_encode_list : ∀ (l : List SearchQueryInput), cleanQueryList l = true →
    decodeQueryList (encodeQueryList l) = some l
  | [], _ => rfl
  | q :: rest, h => by
    simp only [cleanQueryList, Bool.and_eq_true] at h
    obtain ⟨h1, h2⟩ := h
    show ((decodeQuery (encodeQuery q)).bind fun q' =>
          (decodeQueryList (encodeQueryList rest)).bind fun qs =>
          some (q' :: qs))
        = some (q :: rest)
    rw [decode_encode_q q h1, decode_encode_list rest h2]
    rfl

end

/-- C6 (counterexample): serialize-then-deserialize does not reproduce
every tree.  `Term{field: None, value: I64(0)}` serializes its value as the
plain number 0 and deserializes back as `U64(0)` (the behaviour the source
itself records in its comment "Positive numbers seem to be automatically
turned into u64s even if they are i64s"), so the round trip returns a
different tree. -/
theorem c6_roundtrip_counterexample :
    decodeQuery (encodeQuery (.term none (.i64 0))) = some (.term none (.u64 0))
    ∧ SearchQueryInput.term none (.u64 0) ≠ SearchQueryInput.term none (.i64 0) := by
  refine ⟨rfl, ?_⟩
  intro h
  simp at h

/-- C6 (amended): encode-then-decode reproduces the tree for every
query-input tree whose literal values contain no Date value (dates
serialize to strings and come back as string literals) and no non-negative
signed 64-bit value (non-negative numbers deserialize as unsigned); all
other variants, including nested lists, numeric range bounds and all
remaining value shapes, round-trip to an equal tree. -/
theorem c6_roundtrip_clean (q : SearchQueryInput) (h : cleanQuery q = true) :
    decodeQuery (encodeQuery q) = some q :=
  decode_encode_q q h

/-- C6 (witness): the amended round trip at a concrete tree exercising
nesting, a qualified term, a negative signed literal and a range bound. -/
theorem c6_roundtrip_clean_witness :
    cleanQuery (.boolean [.term (some "body") (.str "x")] []
        [.range "created" (.included (.i64 (-5))) .unbounded]) = true
    ∧ decodeQuery (encodeQuery (.boolean [.term (some "body") (.str "x")] []
        [.range "created" (.included (.i64 (-5))) .unbounded]))
      = some (.boolean [.term (some "body") (.str "x")] []
          [.range "created" (.included (.i64 (-5))) .unbounded]) :=
  ⟨rfl, c6_roundtrip_clean _ rfl⟩

end PgSearch
